import Mathlib

/-!
Verification of the NYC taxi toll-impact batch loader and zone resolver.

Shallow embedding of the core of the repository:

* `Parquet_Loader.py` — `tlc_filtered_batches`: opens a parquet file,
  computes `batch_size = max(1, total_rows / 2)` (Python float division;
  the underlying reader takes an `int64` batch size, truncating the float),
  iterates physical batches of that size, normalizes column names, applies
  the three quality filters in order, and yields each non-empty result.
* `get_congestion_zone_location_ids.py` — `get_congestion_zone_ids`:
  scans the zone-lookup table, keeps Manhattan rows, drops rows whose zone
  name contains one of five tokens (case-insensitive; a missing name never
  matches, `na=False`), and accumulates the surviving `LocationID`s.

Timestamps are modelled as rational seconds since an epoch; money and
distance as rationals.  A missing zone name (NaN in the source frame) is
modelled as `Option.none`.
-/

namespace TaxiToll

/-- A canonical trip record, the row shape after the column rename in
`tlc_filtered_batches` (`pickup_time`, `dropoff_time` already parsed to
timestamps, here rational seconds since an epoch). -/
structure Row where
  vendor_id : Int
  pickup_time : ℚ
  dropoff_time : ℚ
  pickup_loc : Nat
  dropoff_loc : Nat
  trip_distance : ℚ
  fare : ℚ
  total_amount : ℚ
  congestion_surcharge : ℚ
  tip_amount : ℚ
  deriving DecidableEq, Repr

/-- Trip duration in seconds: `(dropoff_time - pickup_time).dt.total_seconds()`. -/
def durSec (r : Row) : ℚ := r.dropoff_time - r.pickup_time

/-- Filter 1 ("Teleporter"), from
`df.query('(dropoff_time - pickup_time).dt.total_seconds() >= 60 and fare <= 20')`. -/
def teleporterOk (r : Row) : Bool :=
  decide (60 ≤ durSec r) && decide (r.fare ≤ 20)

/-- Filter 2 ("Impossible Physics"), from
`df.query('trip_distance / ((dropoff_time - pickup_time).dt.total_seconds() / 3600) <= 65')`.
When the duration is zero the float quotient is `±inf` or `NaN`, and
`x / 0 <= 65` holds in IEEE arithmetic exactly when `x < 0`; that case is
made explicit here because rational division by zero yields `0` instead. -/
def speedOk (r : Row) : Bool :=
  if durSec r = 0 then decide (r.trip_distance < 0)
  else decide (r.trip_distance / (durSec r / 3600) ≤ 65)

/-- Filter 3 ("Stationary Ride"), from
`df.query('trip_distance > 0 and fare > 0')`. -/
def stationaryOk (r : Row) : Bool :=
  decide (0 < r.trip_distance) && decide (0 < r.fare)

/-- The quality filter chain applied to one batch, in the fixed source
order: teleporter check, then speed check, then zero-movement check. -/
def filterChain (df : List Row) : List Row :=
  ((df.filter teleporterOk).filter speedOk).filter stationaryOk

/-- The batch size `max(1, total_rows / 2)`: Python `/` is float division and
the parquet reader truncates the float to an `int64`, so on naturals this
is `max 1 (totalRows / 2)` with floor division. -/
def batchSize (totalRows : Nat) : Nat := max 1 (totalRows / 2)

/-- Split a list into consecutive chunks of `k + 1` elements (the last
chunk may be shorter); `fuel` bounds the recursion and is adequate whenever
`l.length ≤ fuel`. -/
def chunksGo (k : Nat) : Nat → List Row → List (List Row)
  | 0, _ => []
  | _, [] => []
  | fuel + 1, x :: xs => (x :: xs.take k) :: chunksGo k fuel (xs.drop k)

/-- The physical batches `pq_file.iter_batches(batch_size=batch_size)`
reads from a file whose rows are `rows`: consecutive slices of
`batchSize rows.length` rows, in file-offset order. -/
def physicalBatches (rows : List Row) : List (List Row) :=
  chunksGo (batchSize rows.length - 1) rows.length rows

/-- The loader `tlc_filtered_batches`: every physical batch is normalized and run
through the filter chain, and the result is yielded only when non-empty
(`if not df.empty: yield df`).  The file is modelled by its row list. -/
def tlc_filtered_batches (rows : List Row) : List (List Row) :=
  ((physicalBatches rows).map filterChain).filter (fun b => !b.isEmpty)

/-- A record of the zone-lookup table `taxi_zone_lookup.csv`; a missing
zone name (NaN) is `none`. -/
structure ZoneRecord where
  locationID : Nat
  borough : String
  zone : Option String
  deriving DecidableEq, Repr

/-- The five excluded name tokens of the regex
`"Upper East|Upper West|Harlem|Washington Heights|Inwood"`. -/
def excludedTokens : List String :=
  ["Upper East", "Upper West", "Harlem", "Washington Heights", "Inwood"]

/-- Whether `pat` occurs as a contiguous subsequence of the second list. -/
def containsSeq (pat : List Char) : List Char → Bool
  | [] => pat.isEmpty
  | c :: cs => pat.isPrefixOf (c :: cs) || containsSeq pat cs

/-- Case-insensitive substring test, the semantics of
`Series.str.contains(pattern, case=False)` for a literal token: both sides
are lowercased character by character and compared for containment. -/
def containsCI (s pat : String) : Bool :=
  containsSeq (pat.data.map Char.toLower) (s.data.map Char.toLower)

/-- Whether a zone name matches the exclusion pattern; a missing name never
matches (`na=False`). -/
def zoneMatchesExcluded : Option String → Bool
  | none => false
  | some z => excludedTokens.any (fun t => containsCI z t)

/-- The resolver `get_congestion_zone_ids`: keep Manhattan records, drop those whose
zone name matches the exclusion pattern, collect the `LocationID`s.  The
source accumulates chunk by chunk into a set; membership in the collected
list is the faithful observable. -/
def get_congestion_zone_ids (records : List ZoneRecord) : List Nat :=
  (records.filter
    (fun r => r.borough == "Manhattan" && !zoneMatchesExcluded r.zone)).map
    (fun r => r.locationID)

/-- A sample canonical record with the given pickup time, dropoff time,
distance and fare; the remaining fields are fixed. -/
def mkRow (pu dropoff dist fare : ℚ) : Row :=
  { vendor_id := 1, pickup_time := pu, dropoff_time := dropoff, pickup_loc := 1,
    dropoff_loc := 2, trip_distance := dist, fare := fare, total_amount := fare,
    congestion_surcharge := 0, tip_amount := 0 }

/-- A ten-minute, two-mile, ten-dollar trip, passing all three filters. -/
def goodRow : Row := mkRow 0 600 2 10

/-- A trip whose dropoff time equals its pickup time. -/
def zeroDurRow : Row := mkRow 0 0 2 10

lemma teleporterOk_goodRow : teleporterOk goodRow = true := by
  norm_num [teleporterOk, durSec, goodRow, mkRow]

lemma speedOk_goodRow : speedOk goodRow = true := by
  norm_num [speedOk, durSec, goodRow, mkRow]

lemma stationaryOk_goodRow : stationaryOk goodRow = true := by
  norm_num [stationaryOk, goodRow, mkRow]

lemma filterChain_goodRow1 : filterChain [goodRow] = [goodRow] := by
  simp [filterChain, List.filter, teleporterOk_goodRow, speedOk_goodRow,
    stationaryOk_goodRow]

lemma filterChain_goodRow2 : filterChain [goodRow, goodRow] = [goodRow, goodRow] := by
  simp [filterChain, List.filter, teleporterOk_goodRow, speedOk_goodRow,
    stationaryOk_goodRow]

lemma tlc_goodRow1 : tlc_filtered_batches [goodRow] = [[goodRow]] := by
  simp [tlc_filtered_batches, physicalBatches, batchSize, chunksGo,
    filterChain_goodRow1]

lemma chunksGo_join (k : Nat) :
    ∀ (fuel : Nat) (l : List Row), l.length ≤ fuel →
      (chunksGo k fuel l).flatten = l := by
  intro fuel
  induction fuel with
  | zero =>
    intro l h
    have hl : l = [] := List.eq_nil_of_length_eq_zero (Nat.le_zero.mp h)
    subst hl
    rfl
  | succ n ih =>
    intro l h
    cases l with
    | nil => rfl
    | cons x xs =>
      have hlen : (xs.drop k).length ≤ n := by
        simp only [List.length_drop]
        have hxs : xs.length ≤ n := by simpa using h
        omega
      simp only [chunksGo, List.flatten_cons, ih (xs.drop k) hlen]
      rw [List.cons_append, List.take_append_drop]

lemma chunksGo_length (k : Nat) :
    ∀ (fuel : Nat) (l : List Row), l.length ≤ fuel →
      (chunksGo k fuel l).length = (l.length + k) / (k + 1) := by
  intro fuel
  induction fuel with
  | zero =>
    intro l h
    have hl : l = [] := List.eq_nil_of_length_eq_zero (Nat.le_zero.mp h)
    subst hl
    simp [chunksGo, Nat.div_eq_of_lt (Nat.lt_succ_self k)]
  | succ n ih =>
    intro l h
    cases l with
    | nil => simp [chunksGo, Nat.div_eq_of_lt (Nat.lt_succ_self k)]
    | cons x xs =>
      have hxs : xs.length ≤ n := by simpa using h
      have hlen : (xs.drop k).length ≤ n := by
        simp only [List.length_drop]; omega
      simp only [chunksGo, List.length_cons, ih (xs.drop k) hlen, List.length_drop]
      rcases Nat.le_total xs.length k with hk | hk
      · have h1 : xs.length - k = 0 := Nat.sub_eq_zero_of_le hk
        have h2 : (0 + k) / (k + 1) = 0 := by
          rw [Nat.zero_add]; exact Nat.div_eq_of_lt (Nat.lt_succ_self k)
        rw [h1, h2]
        have h3 : (xs.length + 1 + k) / (k + 1) = 1 := by
          apply Nat.div_eq_of_lt_le
          · omega
          · omega
        omega
      · have h1 : xs.length - k + k = xs.length := Nat.sub_add_cancel hk
        rw [h1]
        have h2 : xs.length + 1 + k = xs.length + (k + 1) := by omega
        rw [h2, Nat.add_div_right _ (Nat.succ_pos k)]

lemma batchSize_sub_add (n : Nat) : batchSize n - 1 + 1 = batchSize n :=
  Nat.sub_add_cancel (le_max_left 1 _)

lemma physicalBatches_length (rows : List Row) :
    (physicalBatches rows).length =
      if rows.length = 0 then 0
      else if rows.length = 1 then 1
      else if rows.length % 2 = 0 then 2 else 3 := by
  unfold physicalBatches
  rw [chunksGo_length _ _ _ le_rfl, batchSize_sub_add]
  generalize rows.length = n
  rcases n with _ | _ | m
  · decide
  · decide
  · have hbs : batchSize (m + 2) = (m + 2) / 2 := by
      unfold batchSize
      have h1 : 1 ≤ (m + 2) / 2 := by omega
      exact Nat.max_eq_right h1
    rcases Nat.mod_two_eq_zero_or_one m with h | h
    · have hbs2 : batchSize (m + 2) = m / 2 + 1 := by rw [hbs]; omega
      rw [hbs2]
      have hnum : m + 2 + (m / 2 + 1 - 1) = m / 2 + (m / 2 + 1) * 2 := by omega
      rw [hnum, Nat.add_mul_div_left _ _ (Nat.succ_pos (m / 2)),
        Nat.div_eq_of_lt (Nat.lt_succ_self (m / 2))]
      rw [if_neg (by omega), if_neg (by omega), if_pos (by omega)]
    · have hbs2 : batchSize (m + 2) = m / 2 + 1 := by rw [hbs]; omega
      rw [hbs2]
      have hnum : m + 2 + (m / 2 + 1 - 1) = (m / 2 + 1) * 3 := by omega
      rw [hnum, Nat.mul_div_cancel_left _ (Nat.succ_pos (m / 2))]
      rw [if_neg (by omega), if_neg (by omega), if_neg (by omega)]

lemma of_mem_filterChain {df : List Row} {r : Row} (hr : r ∈ filterChain df) :
    teleporterOk r = true ∧ speedOk r = true ∧ stationaryOk r = true := by
  unfold filterChain at hr
  obtain ⟨h2, hstat⟩ := List.mem_filter.mp hr
  obtain ⟨h1, hspeed⟩ := List.mem_filter.mp h2
  obtain ⟨_, htel⟩ := List.mem_filter.mp h1
  exact ⟨htel, hspeed, hstat⟩

lemma mem_batch_eq_filterChain {rows : List Row} {b : List Row}
    (hb : b ∈ tlc_filtered_batches rows) :
    ∃ b0, b = filterChain b0 := by
  unfold tlc_filtered_batches at hb
  obtain ⟨hmap, _⟩ := List.mem_filter.mp hb
  obtain ⟨b0, _, hb0⟩ := List.mem_map.mp hmap
  exact ⟨b0, hb0.symm⟩

lemma filter_swap (p q : Row → Bool) (l : List Row) :
    (l.filter p).filter q = (l.filter q).filter p := by
  induction l with
  | nil => rfl
  | cons x xs ih =>
    cases hp : p x <;> cases hq : q x <;>
      simp [List.filter_cons, hp, hq, ih]

/-- C1: for every batch emitted by `tlc_filtered_batches` and every row in
that batch, the row satisfies all five conditions: duration at least 60
seconds, fare at most 20, average speed at most 65, positive distance, and
positive fare. -/
theorem C1_canonical_shape_invariant (rows : List Row) (b : List Row) (r : Row)
    (hb : b ∈ tlc_filtered_batches rows) (hr : r ∈ b) :
    r.pickup_time + 60 ≤ r.dropoff_time ∧
    r.fare ≤ 20 ∧
    r.trip_distance / ((r.dropoff_time - r.pickup_time) / 3600) ≤ 65 ∧
    0 < r.trip_distance ∧
    0 < r.fare := by
  obtain ⟨b0, rfl⟩ := mem_batch_eq_filterChain hb
  obtain ⟨htel, hspeed, hstat⟩ := of_mem_filterChain hr
  simp only [teleporterOk, Bool.and_eq_true, decide_eq_true_eq] at htel
  simp only [stationaryOk, Bool.and_eq_true, decide_eq_true_eq] at hstat
  have hdur : (60 : ℚ) ≤ durSec r := htel.1
  have hne : durSec r ≠ 0 := by
    intro h0
    rw [h0] at hdur
    norm_num at hdur
  simp only [speedOk, if_neg hne, decide_eq_true_eq] at hspeed
  unfold durSec at hdur hspeed
  exact ⟨by linarith, htel.2, hspeed, hstat.1, hstat.2⟩

theorem C1_witness :
    goodRow.pickup_time + 60 ≤ goodRow.dropoff_time ∧
    goodRow.fare ≤ 20 ∧
    goodRow.trip_distance /
      ((goodRow.dropoff_time - goodRow.pickup_time) / 3600) ≤ 65 ∧
    0 < goodRow.trip_distance ∧
    0 < goodRow.fare :=
  C1_canonical_shape_invariant [goodRow] [goodRow] goodRow
    (by rw [tlc_goodRow1]; exact List.mem_cons_self _ _)
    (List.mem_cons_self _ _)

/-- C3: the loader never yields a batch with zero rows; a physical batch
whose rows are all filtered away is suppressed rather than emitted. -/
theorem C3_no_empty_batch (rows : List Row) (b : List Row)
    (hb : b ∈ tlc_filtered_batches rows) : b ≠ [] := by
  have h := (List.mem_filter.mp hb).2
  simpa using h

theorem C3_witness : ([goodRow] : List Row) ≠ [] :=
  C3_no_empty_batch [goodRow] [goodRow]
    (by rw [tlc_goodRow1]; exact List.mem_cons_self _ _)

/-- C4: the physical batches read from a file partition its rows — their
concatenation, in delivery order, is exactly the file's row list, so every
row appears exactly once, with no gaps, no duplicates, and in file-offset
order. -/
theorem C4_partition_property (rows : List Row) :
    (physicalBatches rows).flatten = rows :=
  chunksGo_join _ _ _ le_rfl

/-- C5: permuting the order of the three per-row quality predicates yields
the same surviving rows as the fixed order, for every batch; all six
orderings of the three filters agree. -/
theorem C5_filter_commutativity (l : List Row) :
    ((l.filter teleporterOk).filter stationaryOk).filter speedOk = filterChain l ∧
    ((l.filter speedOk).filter teleporterOk).filter stationaryOk = filterChain l ∧
    ((l.filter speedOk).filter stationaryOk).filter teleporterOk = filterChain l ∧
    ((l.filter stationaryOk).filter teleporterOk).filter speedOk = filterChain l ∧
    ((l.filter stationaryOk).filter speedOk).filter teleporterOk = filterChain l := by
  unfold filterChain
  refine ⟨filter_swap _ _ _, ?_, ?_, ?_, ?_⟩
  · rw [filter_swap speedOk teleporterOk]
  · rw [filter_swap stationaryOk teleporterOk, filter_swap speedOk teleporterOk]
  · rw [filter_swap stationaryOk teleporterOk, filter_swap stationaryOk speedOk]
  · rw [filter_swap speedOk teleporterOk, filter_swap stationaryOk teleporterOk,
      filter_swap stationaryOk speedOk]

/-- C6: a row whose pickup time equals its dropoff time is excluded by the
quality filter chain, because the duration check requires at least 60
seconds rather than merely a positive duration. -/
theorem C6_zero_duration_excluded (df : List Row) (r : Row)
    (h : r.dropoff_time = r.pickup_time) : r ∉ filterChain df := by
  intro hr
  have htel := (of_mem_filterChain hr).1
  simp only [teleporterOk, Bool.and_eq_true, decide_eq_true_eq] at htel
  have hdur : durSec r = 0 := by unfold durSec; rw [h]; ring
  rw [hdur] at htel
  exact absurd htel.1 (by norm_num)

theorem C6_witness : zeroDurRow ∉ filterChain [zeroDurRow] :=
  C6_zero_duration_excluded [zeroDurRow] zeroDurRow rfl

/-- C8: a zero-row file yields no batches; the loader's output on the empty
row list is the empty sequence, a total (error-free) result. -/
theorem C8_zero_row_file : tlc_filtered_batches [] = [] := rfl

/-- C10: every row reaching the speed check under the fixed filter order has
already passed the teleporter check, so its duration is at least 60 seconds
and the duration-in-hours denominator is strictly positive. -/
theorem C10_speed_check_denominator (df : List Row) (r : Row)
    (hr : r ∈ df.filter teleporterOk) :
    60 ≤ durSec r ∧ 0 < durSec r / 3600 := by
  have htel := (List.mem_filter.mp hr).2
  simp only [teleporterOk, Bool.and_eq_true, decide_eq_true_eq] at htel
  have h60 : (60 : ℚ) ≤ durSec r := htel.1
  have hpos : (0 : ℚ) < durSec r := lt_of_lt_of_le (by norm_num) h60
  exact ⟨h60, div_pos hpos (by norm_num)⟩

theorem C10_witness : 60 ≤ durSec goodRow ∧ 0 < durSec goodRow / 3600 :=
  C10_speed_check_denominator [goodRow] goodRow
    (List.mem_filter.mpr ⟨List.mem_cons_self _ _, teleporterOk_goodRow⟩)

/-- A five-row file in which every row passes all three filters. -/
def rows5 : List Row := [goodRow, goodRow, goodRow, goodRow, goodRow]

lemma tlc_rows5_eval :
    tlc_filtered_batches rows5 =
      [[goodRow, goodRow], [goodRow, goodRow], [goodRow]] := by
  have hphys : physicalBatches rows5 =
      [[goodRow, goodRow], [goodRow, goodRow], [goodRow]] := rfl
  unfold tlc_filtered_batches
  rw [hphys]
  simp [filterChain_goodRow1, filterChain_goodRow2, List.filter]

/-- C2 counterexample: a five-row file whose rows all survive filtering
yields three batches — neither exactly two nor zero — because the computed
batch size is `max(1, ⌊5/2⌋) = 2` (floor, not ceiling), splitting the file
into slices of 2, 2 and 1 rows. -/
theorem C2_counterexample :
    ¬((tlc_filtered_batches rows5).length = 2 ∨
      (tlc_filtered_batches rows5).length = 0) := by
  rw [tlc_rows5_eval]
  decide

/-- C2 amended: the batch size is `max(1, ⌊total_rows/2⌋)` (Python float
division, truncated to an integer by the reader), so a file is read as zero
physical batches when empty, one when it has a single row, two when its row
count is even, and three when its row count is odd and at least three; the
loader yields at most that many batches, fewer when some batch is entirely
filtered away. -/
theorem C2_amended_batch_count (rows : List Row) :
    (physicalBatches rows).length =
      (if rows.length = 0 then 0
       else if rows.length = 1 then 1
       else if rows.length % 2 = 0 then 2 else 3) ∧
    (tlc_filtered_batches rows).length ≤ (physicalBatches rows).length := by
  refine ⟨physicalBatches_length rows, ?_⟩
  unfold tlc_filtered_batches
  calc (((physicalBatches rows).map filterChain).filter (fun b => !b.isEmpty)).length
      ≤ ((physicalBatches rows).map filterChain).length := List.length_filter_le _ _
    _ = (physicalBatches rows).length := List.length_map _ _

lemma mem_congestion_ids {records : List ZoneRecord} {r : ZoneRecord}
    (hr : r ∈ records) (hb : r.borough = "Manhattan")
    (hz : zoneMatchesExcluded r.zone = false) :
    r.locationID ∈ get_congestion_zone_ids records := by
  unfold get_congestion_zone_ids
  refine List.mem_map.mpr ⟨r, List.mem_filter.mpr ⟨hr, ?_⟩, rfl⟩
  simp [hb, hz]

/-- C7: the zone resolver includes a Manhattan record exactly when its zone
name does not match the excluded tokens (case-insensitive substring match):
every non-matching Manhattan record's id is in the result, every id in the
result comes from a non-matching Manhattan record (so no zone outside
Manhattan is ever included), a Manhattan zone named "Upper West Side"
matches the exclusion, and one named "Financial District" does not. -/
theorem C7_zone_resolver (records : List ZoneRecord) :
    (∀ r ∈ records, r.borough = "Manhattan" → zoneMatchesExcluded r.zone = false →
        r.locationID ∈ get_congestion_zone_ids records) ∧
    (∀ i ∈ get_congestion_zone_ids records, ∃ r, r ∈ records ∧
        r.locationID = i ∧ r.borough = "Manhattan" ∧
        zoneMatchesExcluded r.zone = false) ∧
    zoneMatchesExcluded (some "Upper West Side") = true ∧
    zoneMatchesExcluded (some "Financial District") = false := by
  refine ⟨fun r hr hb hz => mem_congestion_ids hr hb hz, ?_, by decide, by decide⟩
  intro i hi
  unfold get_congestion_zone_ids at hi
  obtain ⟨r, hrf, hid⟩ := List.mem_map.mp hi
  obtain ⟨hr, hcond⟩ := List.mem_filter.mp hrf
  simp only [Bool.and_eq_true, beq_iff_eq, Bool.not_eq_true'] at hcond
  exact ⟨r, hr, hid, hcond.1, hcond.2⟩

theorem C7_witness :
    (12 : Nat) ∈
      get_congestion_zone_ids [⟨12, "Manhattan", some "Financial District"⟩] := by
  have h := C7_zone_resolver [⟨12, "Manhattan", some "Financial District"⟩]
  exact h.1 ⟨12, "Manhattan", some "Financial District"⟩
    (List.mem_cons_self _ _) rfl h.2.2.2

/-- C9: a Manhattan record whose zone name is missing is included in the
congestion set — the exclusion match treats a missing name as not matching
any token (`na=False`), so the record survives and its id is collected. -/
theorem C9_missing_name_included (records : List ZoneRecord) (r : ZoneRecord)
    (hr : r ∈ records) (hb : r.borough = "Manhattan") (hz : r.zone = none) :
    r.locationID ∈ get_congestion_zone_ids records :=
  mem_congestion_ids hr hb (by rw [hz]; rfl)

theorem C9_witness :
    (99 : Nat) ∈ get_congestion_zone_ids [⟨99, "Manhattan", none⟩] :=
  C9_missing_name_included [⟨99, "Manhattan", none⟩] ⟨99, "Manhattan", none⟩
    (List.mem_cons_self _ _) rfl rfl

end TaxiToll
